import Mathlib

/-!
# xk6-socketio: the per-VU Socket.IO bridge

A shallow embedding of `socketio.go` (package `socketio`):

* Go `interface{}` values are the inductive type `Value`, keeping the dynamic
  types apart (`int` and `int64` are different dynamic types, a nil slice and an
  empty slice are different values).
* the module instance `SocketIOModule` is explicit state; besides the `client`
  field it carries ghost traces of the calls made to the connect seam and to
  the `socketClient` interface, of the `Debugf` lines and of the `time.After`
  timers, so that "which transport operation was invoked" is a statement about
  a list.
* the host handle `vu` is kept as far as the module uses it: `vu.State()` may
  be nil (the init context of the host) and so may the `Logger` of a state, and
  every `m.vu.State().Logger.Debugf(...)` then panics with a nil dereference.
* the mutex makes each read or write of `m.client` atomic; the embedding runs
  one host call at a time, so `Lock` and `Unlock` leave no trace.
* the wait of `EmitWithAck` (a buffered channel of capacity 1 raced against
  `time.After` in a `select`) is a step function over scheduling events.
* `int` and `time.Duration` are 64 bit two's complement integers.
-/

namespace Bridge

/-! ## Host values -/

/-- Dynamic values of Go's `interface{}`. `nilSlice` is `[]interface{}(nil)`,
`slice xs` a non-nil `[]interface{}`; `map` is a `map[string]interface{}`
written as its key/value pairs. -/
inductive Value where
  | nil
  | bool (b : Bool)
  | int (n : Int)
  | int64 (n : Int)
  | float64 (bits : Nat)
  | str (s : String)
  | nilSlice
  | slice (xs : List Value)
  | map (kvs : List (String × Value))

/-- A Go value of static type `[]interface{}`: the nil slice or a list of elements. -/
inductive GoSlice where
  | nil
  | mk (xs : List Value)

/-- Go's `len(res)`. -/
def GoSlice.len : GoSlice → Nat
  | .nil => 0
  | .mk xs => xs.length

/-- A `[]interface{}` stored in an `interface{}` (the conversion done by `return res`). -/
def GoSlice.toValue : GoSlice → Value
  | .nil => Value.nilSlice
  | .mk xs => Value.slice xs

/-- Elementwise image of a slice; the nil slice stays nil. -/
def GoSlice.mapElems (f : Value → Value) : GoSlice → GoSlice
  | .nil => .nil
  | .mk xs => .mk (xs.map f)

/-- A non-nil Go `error`, identified with the string its `Error()` method returns. -/
abbrev GoError := String

/-- A non-nil `socketClient` interface value (an opaque handle). -/
abbrev Client := Nat

/-! ## Ghost traces -/

/-- One call made by the module to the connect seam or to a `socketClient`
method, with the value the callee returned. -/
inductive Call where
  | connectFunc (url : String) (client : Option Client) (err : Option GoError)
  | Emit (c : Client) (event : String) (data : List Value) (err : Option GoError)
  | Timeout (c : Client) (d : Int) (view : Client)
  | EmitWithAck (c : Client) (event : String) (data : Value)
  | Close (c : Client)

/-- One `Logger.Debugf` call, kept as its format arguments. -/
inductive LogLine where
  | emit (moduleName event : String) (data : Value)
  | emitWithAck (moduleName event : String) (data : Value) (timeout : Int)
  | ackError (moduleName event : String) (err : GoError)
  | ackValue (moduleName event : String) (res : GoSlice)

/-- The value a Go `panic` carries: a string, an error wrapped for the host, or
the runtime error of a nil pointer dereference. -/
inductive PanicValue where
  | str (s : String)
  | goError (err : GoError)
  | nilDereference
deriving DecidableEq

/-- How a host call ends: a normal return, a panic, or (for a schedule that stops
before the `select` of `EmitWithAck` completes) a caller that is still waiting. -/
inductive Outcome (α : Type) where
  | ret (a : α)
  | panic (p : PanicValue)
  | waiting

/-- The external collaborators: the process-wide connect seam `connectFunc` and
the results of the `socketClient` methods `Emit` and `Timeout`. Each sees the
calls made so far, so a collaborator may answer differently on every call.
`Timeout` is taken to return a non-nil client, as both implementations of the
interface do. -/
structure Env where
  connectFunc : List Call → String → Option Client × Option GoError
  Emit : List Call → Client → String → List Value → Option GoError
  Timeout : List Call → Client → Int → Client

/-- A non-nil logger (the `logrus.FieldLogger` held by a state). -/
inductive FieldLogger where
  | handle

/-- The host's `lib.State` as far as the module reads it: the field `Logger`,
`none` when it is nil. -/
structure LibState where
  Logger : Option FieldLogger

/-- The host handle `modules.VU` as far as the module uses it: what `State()`
returns, `none` when it returns nil (as it does in the init context). -/
structure VU where
  State : Option LibState

/-- The per-VU instance. `vu`, `client` and `moduleName` are the fields of the
source (`client = none` is the nil interface); `calls`, `logs`, `timers` and
`blocked` are ghost traces, oldest entry first: the calls to the seam and the
transport, the `Debugf` lines, the durations given to `time.After`, and the
values of the ack callbacks left blocked in `ch <- v`. -/
structure SocketIOModule where
  vu : VU
  client : Option Client
  moduleName : String
  calls : List Call
  logs : List LogLine
  timers : List Int
  blocked : List GoSlice

/-- Go `NewModuleInstance`: `&SocketIOModule{vu: vu, moduleName: r.moduleName}`,
no client, empty traces. -/
def NewModuleInstance (vu : VU) (moduleName : String) : SocketIOModule :=
  { vu := vu, client := none, moduleName := moduleName, calls := [], logs := [], timers := [],
    blocked := [] }

/-- Go `m.vu.State().Logger.Debugf(...)`: the line is logged when the state and
its logger are there; `none` is the nil dereference panic otherwise. -/
def Debugf (m : SocketIOModule) (line : LogLine) : Option SocketIOModule :=
  match m.vu.State with
  | none => none
  | some st =>
    match st.Logger with
    | none => none
    | some _ => some { m with logs := m.logs ++ [line] }

/-! ## Connect, Emit, Disconnect -/

/-- The panic value of `Emit` and `EmitWithAck` on a nil client. -/
def notConnected : PanicValue := PanicValue.str "Socket.IO client not connected"

/-- Go `Connect` (lines 78-86): ask the seam; when it reports an error, panic
with that error wrapped by the host runtime (`NewGoError`), before `m.client` is
touched; otherwise store the client it returned. -/
def Connect (env : Env) (m : SocketIOModule) (url : String) : Outcome Unit × SocketIOModule :=
  let r := env.connectFunc m.calls url
  let m1 := { m with calls := m.calls ++ [Call.connectFunc url r.1 r.2] }
  match r.2 with
  | some e => (Outcome.panic (PanicValue.goError e), m1)
  | none => (Outcome.ret (), { m1 with client := r.1 })

/-- Go `Emit` (lines 89-97): the `Debugf` call of line 90 comes first and panics
when the state or the logger is nil; then panic on a nil client, otherwise call
the client's `Emit` with `data` as the only variadic argument and drop its
result. -/
def Emit (env : Env) (m : SocketIOModule) (event : String) (data : Value) :
    Outcome Unit × SocketIOModule :=
  match Debugf m (LogLine.emit m.moduleName event data) with
  | none => (Outcome.panic PanicValue.nilDereference, m)
  | some m1 =>
    match m1.client with
    | none => (Outcome.panic notConnected, m1)
    | some c =>
      let err := env.Emit m1.calls c event [data]
      (Outcome.ret (), { m1 with calls := m1.calls ++ [Call.Emit c event [data] err] })

/-- Go `Disconnect` (lines 142-149): close and forget the client if there is one. -/
def Disconnect (m : SocketIOModule) : Outcome Unit × SocketIOModule :=
  match m.client with
  | some c => (Outcome.ret (), { m with calls := m.calls ++ [Call.Close c], client := none })
  | none => (Outcome.ret (), m)

/-! ## EmitWithAck -/

/-- The constant `defaultTimeout` of `EmitWithAck`. -/
def defaultTimeout : Int := 2000

/-- Lines 102-111 of `EmitWithAck`: the type assertion `args[0].(int)` succeeds
exactly for the dynamic type `int`. -/
def parseTimeout (args : List Value) : Int :=
  match args with
  | a :: _ =>
    match a with
    | Value.int t => t
    | _ => defaultTimeout
  | [] => defaultTimeout

/-- Reduction of an integer to the 64 bit two's complement range. -/
def wrap64 (x : Int) : Int := (x + 2 ^ 63) % 2 ^ 64 - 2 ^ 63

/-- The Go expression `time.Duration(timeout) * time.Millisecond`, in nanoseconds. -/
def durationOf (timeout : Int) : Int := wrap64 (wrap64 timeout * 1000000)

/-- The error envelope built by the ack callback (line 124). -/
def errorEnvelope (msg : GoError) : Value :=
  Value.map [("success", Value.bool false), ("error", Value.str msg)]

/-- The envelope returned when the deadline wins the `select` (line 137). -/
def timeoutEnvelope : Value :=
  Value.map [("success", Value.bool false), ("error", Value.str "ack timeout")]

/-- The slice the ack callback sends into the channel (lines 122-128). -/
def ackMessage (res : GoSlice) (err : Option GoError) : GoSlice :=
  match err with
  | some e => GoSlice.mk [errorEnvelope e]
  | none => res

/-- The line the ack callback logs (lines 123 and 127). -/
def ackLog (moduleName event : String) (res : GoSlice) (err : Option GoError) : LogLine :=
  match err with
  | some e => LogLine.ackError moduleName event e
  | none => LogLine.ackValue moduleName event res

/-- The first `select` case (lines 131-135): `if len(res) == 1 { return res[0] }`,
then `return res`. The index expression cannot fail when the length is one. -/
def normalize (res : GoSlice) : Value :=
  if res.len = 1 then
    match res with
    | GoSlice.mk (v :: _) => v
    | _ => Value.nil
  else res.toValue

/-- A buffered Go channel of `[]interface{}`: the buffer, its capacity, and the
values of the senders blocked in `ch <- v`, all oldest first. -/
structure Chan where
  buf : List GoSlice
  cap : Nat
  sendq : List GoSlice

/-- Go `make(chan []interface{}, n)`. -/
def Chan.make (n : Nat) : Chan := { buf := [], cap := n, sendq := [] }

/-- Go `ch <- v`: buffered when there is room, otherwise the sender blocks. -/
def Chan.send (ch : Chan) (v : GoSlice) : Chan :=
  if ch.buf.length < ch.cap then { ch with buf := ch.buf ++ [v] }
  else { ch with sendq := ch.sendq ++ [v] }

/-- Go `<-ch` on a ready channel: take the oldest buffered value and let the
oldest blocked sender, if any, complete. -/
def Chan.recv (ch : Chan) : Option (GoSlice × Chan) :=
  match ch.buf with
  | [] => none
  | v :: rest => some (v, { ch with buf := rest ++ ch.sendq.take 1, sendq := ch.sendq.drop 1 })

/-- What can happen while `EmitWithAck` waits: the transport invokes the ack
callback, the channel of `time.After` becomes ready, or the caller's `select`
is scheduled (`preferTimer` resolves Go's random choice when both cases are
ready). -/
inductive AckEvent where
  | ackFires (res : GoSlice) (err : Option GoError)
  | deadline
  | select (preferTimer : Bool)

/-- Whether the event is an invocation of the ack callback. -/
def AckEvent.isAck : AckEvent → Bool
  | .ackFires _ _ => true
  | _ => false

/-- Whether the event is the expiry of the timer. -/
def AckEvent.isDeadline : AckEvent → Bool
  | .deadline => true
  | _ => false

/-- The arguments of the first invocation of the ack callback in a schedule. -/
def firstAck : List AckEvent → Option (GoSlice × Option GoError)
  | [] => none
  | AckEvent.ackFires res err :: _ => some (res, err)
  | _ :: rest => firstAck rest

/-- Whether the event is a scheduling of the caller's `select`. -/
def AckEvent.isSelect : AckEvent → Bool
  | .select _ => true
  | _ => false

/-- State of one ack request: the result channel, whether the timer channel is
ready, the value `EmitWithAck` returned (once it has), and the callback's log. -/
structure AckState where
  ch : Chan
  timerFired : Bool
  result : Option Value
  logs : List LogLine

/-- State after line 120: `ch := make(chan []interface{}, 1)`, nothing received. -/
def AckState.init : AckState :=
  { ch := Chan.make 1, timerFired := false, result := none, logs := [] }

/-- One step of the request (lines 121-138). -/
def AckState.step (moduleName event : String) (s : AckState) : AckEvent → AckState
  | .ackFires res err =>
    { s with ch := s.ch.send (ackMessage res err),
             logs := s.logs ++ [ackLog moduleName event res err] }
  | .deadline => { s with timerFired := true }
  | .select preferTimer =>
    match s.result with
    | some _ => s
    | none =>
      match s.ch.recv with
      | some (res, ch1) =>
        if s.timerFired && preferTimer then { s with result := some timeoutEnvelope }
        else { s with ch := ch1, result := some (normalize res) }
      | none =>
        if s.timerFired then { s with result := some timeoutEnvelope } else s

/-- The request after a whole schedule. -/
def AckState.run (moduleName event : String) (s : AckState) (sched : List AckEvent) : AckState :=
  sched.foldl (AckState.step moduleName event) s

/-- Go `EmitWithAck` (lines 100-139). The timeout is computed, then the `Debugf`
call of line 112 panics when the state or the logger is nil, then the client is
checked. `sched` is what happens after the ack callback has been handed to the
transport; the callback logs through the same state and logger, which are there
once line 112 has been passed. -/
def EmitWithAck (env : Env) (m : SocketIOModule) (event : String) (data : Value)
    (args : List Value) (sched : List AckEvent) : Outcome Value × SocketIOModule :=
  let timeout := parseTimeout args
  match Debugf m (LogLine.emitWithAck m.moduleName event data timeout) with
  | none => (Outcome.panic PanicValue.nilDereference, m)
  | some m1 =>
    match m1.client with
    | none => (Outcome.panic notConnected, m1)
    | some c =>
      let d := durationOf timeout
      let client := env.Timeout m1.calls c d
      let m2 := { m1 with calls := m1.calls ++
                            [Call.Timeout c d client, Call.EmitWithAck client event data],
                          timers := m1.timers ++ [d] }
      let s := AckState.run m.moduleName event AckState.init sched
      let m3 := { m2 with logs := m2.logs ++ s.logs, blocked := m2.blocked ++ s.ch.sendq }
      match s.result with
      | some v => (Outcome.ret v, m3)
      | none => (Outcome.waiting, m3)

/-! ## Sequences of host calls -/

/-- One call of an exported function by the script; for `emitWithAck` together
with the schedule of its wait. -/
inductive Op where
  | connect (url : String)
  | emit (event : String) (data : Value)
  | emitWithAck (event : String) (data : Value) (args : List Value) (sched : List AckEvent)
  | disconnect

/-- The bridge after one host call (a panic is caught by the host and the
script goes on with the bridge as the call left it). -/
def Op.exec (env : Env) (m : SocketIOModule) : Op → SocketIOModule
  | .connect url => (Connect env m url).2
  | .emit event data => (Emit env m event data).2
  | .emitWithAck event data args sched => (EmitWithAck env m event data args sched).2
  | .disconnect => (Disconnect m).2

/-- The bridge after a sequence of host calls. -/
def runOps (env : Env) (m : SocketIOModule) (ops : List Op) : SocketIOModule :=
  ops.foldl (Op.exec env) m

/-- The client a call to the seam produced, if it produced one. -/
def Call.producedClient : Call → Option Client
  | .connectFunc _ (some c) none => some c
  | _ => none

/-- The client a call closed, if it is a `Close`. -/
def Call.closedClient : Call → Option Client
  | .Close c => some c
  | _ => none

/-- The clients the connect seam has produced, in order. -/
def produced (calls : List Call) : List Client := calls.filterMap Call.producedClient

/-- The clients on which `Close` has been called, in order. -/
def closed (calls : List Call) : List Client := calls.filterMap Call.closedClient

/-- The clients produced by the seam on which `Close` has not been called. -/
def alive (calls : List Call) : List Client :=
  (produced calls).dedup.filter (fun c => decide (c ∉ closed calls))

/-- Every `connect` of the sequence is made on a bridge without a client, or fails. -/
def NoReconnect (env : Env) : SocketIOModule → List Op → Prop
  | _, [] => True
  | m, op :: rest =>
    (match op with
      | Op.connect url => m.client = none ∨ (env.connectFunc m.calls url).2 ≠ none
      | _ => True)
    ∧ NoReconnect env (op.exec env m) rest

/-- The integer carried by a value whose dynamic type is an integer type. -/
def Value.asInteger : Value → Option Int
  | Value.int n => some n
  | Value.int64 n => some n
  | _ => none

/-- Timeout of the specification, following its words: the third argument when it
is an integer, 2000 when it is absent or not an integer. -/
def specTimeout (args : List Value) : Int :=
  match args with
  | a :: _ =>
    match a.asInteger with
    | some t => t
    | none => 2000
  | [] => 2000

/-! ## Invariants of the ack request, sample inputs -/

/-- Nothing has been sent into the channel and, if the call has returned, it
returned the timeout envelope after the timer fired. -/
def AckState.Quiet (s : AckState) : Prop :=
  s.ch.buf = [] ∧ (s.result = none ∨ (s.result = some timeoutEnvelope ∧ s.timerFired = true))

/-- Number of invocations of the ack callback in a schedule. -/
def ackCount (sched : List AckEvent) : Nat := (sched.filter AckEvent.isAck).length

/-- Capacity one, no blocked sender, and room in the buffer for every ack that
is still to come. -/
def AckState.Roomy (s : AckState) (pending : Nat) : Prop :=
  s.ch.cap = 1 ∧ s.ch.sendq = [] ∧ s.ch.buf.length + pending ≤ 1

/-- One of the two `select` cases is ready, or the call has returned. -/
def AckState.Ready (s : AckState) : Prop :=
  s.ch.cap = 1 ∧ (s.result.isSome = true ∨ s.timerFired = true ∨ s.ch.buf ≠ [])

/-- A host handle with a state and a logger, as the test suite builds it. -/
def sampleVU : VU := { State := some { Logger := some FieldLogger.handle } }

/-- A host handle in the init context: `State()` returns nil. -/
def initVU : VU := { State := none }

/-- A connected bridge with an empty history, used to evaluate the definitions. -/
def sampleModule : SocketIOModule :=
  { vu := sampleVU, client := some 7, moduleName := "testmod", calls := [], logs := [],
    timers := [], blocked := [] }

/-- A connected bridge whose host handle has no state. -/
def initModule : SocketIOModule :=
  { vu := initVU, client := some 7, moduleName := "testmod", calls := [], logs := [],
    timers := [], blocked := [] }

/-- A transport whose `Emit` succeeds, whose `Timeout` returns the receiver, and
a seam that hands out a fresh client on every call. -/
def sampleEnv : Env :=
  { connectFunc := fun calls _ => (some calls.length, none),
    Emit := fun _ _ _ _ => none,
    Timeout := fun _ c _ => c }

/-- A transport whose `Emit` always reports an error and a seam that always
fails (returning a nil client with the error, as the default seam does). -/
def failingEnv : Env :=
  { connectFunc := fun _ _ => (none, some "fail"),
    Emit := fun _ _ _ _ => some "emit failed",
    Timeout := fun _ c _ => c }

/-- Every open client is the one the bridge references. -/
def OnlyStoredAlive (m : SocketIOModule) : Prop :=
  ∀ c ∈ alive m.calls, m.client = some c

/-! ## Lemmas on the ack request -/

theorem AckState.run_append (mn ev : String) (s : AckState) (a b : List AckEvent) :
    AckState.run mn ev s (a ++ b) = AckState.run mn ev (AckState.run mn ev s a) b := by
  simp [AckState.run, List.foldl_append]

theorem AckState.run_cons (mn ev : String) (s : AckState) (e : AckEvent) (l : List AckEvent) :
    AckState.run mn ev s (e :: l) = AckState.run mn ev (AckState.step mn ev s e) l := rfl

theorem AckState.step_result_stable (mn ev : String) (s : AckState) (e : AckEvent) (r : Value)
    (h : s.result = some r) : (AckState.step mn ev s e).result = some r := by
  cases e <;> simp [AckState.step, h]

theorem AckState.run_result_stable (mn ev : String) (sched : List AckEvent) :
    ∀ (s : AckState) (r : Value), s.result = some r →
      (AckState.run mn ev s sched).result = some r := by
  induction sched with
  | nil => intro s r h; exact h
  | cons e l ih =>
    intro s r h
    rw [AckState.run_cons]
    exact ih _ r (AckState.step_result_stable mn ev s e r h)

theorem AckState.step_quiet (mn ev : String) (s : AckState) (e : AckEvent)
    (he : e.isAck = false) (h : s.Quiet) : (AckState.step mn ev s e).Quiet := by
  obtain ⟨hb, hr⟩ := h
  cases e with
  | ackFires res err => simp [AckEvent.isAck] at he
  | deadline =>
    refine ⟨by simpa [AckState.step] using hb, ?_⟩
    rcases hr with hr | ⟨hr, _⟩
    · left; simpa [AckState.step] using hr
    · right; simp [AckState.step, hr]
  | select b =>
    rcases hr with hr | ⟨hr, ht⟩
    · cases hT : s.timerFired
      · refine ⟨?_, Or.inl ?_⟩ <;> simp [AckState.step, hr, Chan.recv, hb, hT]
      · refine ⟨?_, Or.inr ⟨?_, ?_⟩⟩ <;> simp [AckState.step, hr, Chan.recv, hb, hT]
    · refine ⟨?_, Or.inr ⟨?_, ?_⟩⟩ <;> simp [AckState.step, hr, hb, ht]

theorem AckState.step_timer_mono (mn ev : String) (s : AckState) (e : AckEvent)
    (h : s.timerFired = true) : (AckState.step mn ev s e).timerFired = true := by
  cases e with
  | ackFires res err => simpa [AckState.step] using h
  | deadline => simp [AckState.step]
  | select b =>
    simp only [AckState.step]
    split
    · exact h
    · split
      · split <;> simpa using h
      · split <;> simpa using h

theorem AckState.run_quiet (mn ev : String) (sched : List AckEvent) :
    ∀ (s : AckState), (∀ e ∈ sched, AckEvent.isAck e = false) → s.Quiet →
      (AckState.run mn ev s sched).Quiet := by
  induction sched with
  | nil => intro s _ h; exact h
  | cons e l ih =>
    intro s hq h
    rw [AckState.run_cons]
    exact ih _ (fun x hx => hq x (List.mem_cons_of_mem _ hx))
      (AckState.step_quiet mn ev s e (hq e (List.mem_cons_self _ _)) h)

theorem AckState.run_timer_mono (mn ev : String) (sched : List AckEvent) :
    ∀ (s : AckState), s.timerFired = true → (AckState.run mn ev s sched).timerFired = true := by
  induction sched with
  | nil => intro s h; exact h
  | cons e l ih =>
    intro s h
    rw [AckState.run_cons]
    exact ih _ (AckState.step_timer_mono mn ev s e h)

/-- A `select` that finds neither case ready leaves the request as it is. -/
theorem AckState.run_selects_idle (mn ev : String) (sched : List AckEvent) :
    ∀ (s : AckState), (∀ e ∈ sched, AckEvent.isSelect e = true) → s.ch.buf = [] →
      s.timerFired = false → AckState.run mn ev s sched = s := by
  induction sched with
  | nil => intro s _ _ _; rfl
  | cons e l ih =>
    intro s hs hb ht
    have hstep : AckState.step mn ev s e = s := by
      have := hs e (List.mem_cons_self _ _)
      cases e with
      | ackFires res err => simp [AckEvent.isSelect] at this
      | deadline => simp [AckEvent.isSelect] at this
      | select b =>
        cases hr : s.result <;> simp [AckState.step, hr, Chan.recv, hb, ht]
    rw [AckState.run_cons, hstep]
    exact ih s (fun x hx => hs x (List.mem_cons_of_mem _ hx)) hb ht

theorem Debugf_of_logger (m : SocketIOModule) (line : LogLine) (st : LibState)
    (lg : FieldLogger) (hst : m.vu.State = some st) (hlg : st.Logger = some lg) :
    Debugf m line = some { m with logs := m.logs ++ [line] } := by
  simp [Debugf, hst, hlg]

theorem Debugf_client (m m1 : SocketIOModule) (line : LogLine) (h : Debugf m line = some m1) :
    m1.client = m.client ∧ m1.calls = m.calls ∧ m1.timers = m.timers
      ∧ m1.blocked = m.blocked ∧ m1.vu = m.vu ∧ m1.moduleName = m.moduleName
      ∧ m1.logs = m.logs ++ [line] := by
  unfold Debugf at h
  split at h
  · simp at h
  · split at h
    · simp at h
    · simp only [Option.some.injEq] at h
      subst h
      simp

/-- On a connected bridge that can log, `EmitWithAck` is read off the request. -/
theorem EmitWithAck_eq (env : Env) (m : SocketIOModule) (c : Client) (st : LibState)
    (lg : FieldLogger) (event : String) (data : Value) (args : List Value)
    (sched : List AckEvent) (hc : m.client = some c) (hst : m.vu.State = some st)
    (hlg : st.Logger = some lg) :
    EmitWithAck env m event data args sched =
      ((match (AckState.run m.moduleName event AckState.init sched).result with
        | some v => Outcome.ret v
        | none => Outcome.waiting),
       { m with
          logs := m.logs ++ [LogLine.emitWithAck m.moduleName event data (parseTimeout args)]
            ++ (AckState.run m.moduleName event AckState.init sched).logs,
          calls := m.calls ++
            [Call.Timeout c (durationOf (parseTimeout args))
                (env.Timeout m.calls c (durationOf (parseTimeout args))),
              Call.EmitWithAck (env.Timeout m.calls c (durationOf (parseTimeout args)))
                event data],
          timers := m.timers ++ [durationOf (parseTimeout args)],
          blocked := m.blocked ++ (AckState.run m.moduleName event AckState.init sched).ch.sendq }) := by
  simp only [EmitWithAck, Debugf, hst, hlg, hc]
  cases (AckState.run m.moduleName event AckState.init sched).result <;> rfl

theorem EmitWithAck_outcome (env : Env) (m : SocketIOModule) (c : Client) (st : LibState)
    (lg : FieldLogger) (event : String) (data : Value) (args : List Value)
    (sched : List AckEvent) (hc : m.client = some c) (hst : m.vu.State = some st)
    (hlg : st.Logger = some lg) :
    (EmitWithAck env m event data args sched).1 =
      match (AckState.run m.moduleName event AckState.init sched).result with
      | some v => Outcome.ret v
      | none => Outcome.waiting := by
  rw [EmitWithAck_eq env m c st lg event data args sched hc hst hlg]

theorem AckState.step_select_timeout (mn ev : String) (s : AckState) (b : Bool)
    (h : s.Quiet) (ht : s.timerFired = true) :
    (AckState.step mn ev s (AckEvent.select b)).result = some timeoutEnvelope := by
  obtain ⟨hb, hr⟩ := h
  rcases hr with hr | ⟨hr, _⟩
  · simp [AckState.step, hr, Chan.recv, hb, ht]
  · simp [AckState.step, hr]

/-- A `select` that runs after the timer fired, with no ack sent so far, makes
the call return the timeout envelope. -/
theorem AckState.deadline_then_select (mn ev : String) (pre mid post : List AckEvent) (b : Bool)
    (hpre : ∀ e ∈ pre, AckEvent.isAck e = false) (hmid : ∀ e ∈ mid, AckEvent.isAck e = false) :
    (AckState.run mn ev AckState.init
        (pre ++ AckEvent.deadline :: (mid ++ AckEvent.select b :: post))).result
      = some timeoutEnvelope := by
  have h0 : AckState.init.Quiet := ⟨rfl, Or.inl rfl⟩
  have h1 := AckState.run_quiet mn ev pre AckState.init hpre h0
  have h2 := AckState.step_quiet mn ev _ AckEvent.deadline rfl h1
  have t2 : (AckState.step mn ev (AckState.run mn ev AckState.init pre)
      AckEvent.deadline).timerFired = true := by simp [AckState.step]
  have h3 := AckState.run_quiet mn ev mid _ hmid h2
  have t3 := AckState.run_timer_mono mn ev mid _ t2
  rw [AckState.run_append, AckState.run_cons, AckState.run_append, AckState.run_cons]
  apply AckState.run_result_stable
  exact AckState.step_select_timeout mn ev _ b h3 t3

theorem ackCount_cons (e : AckEvent) (l : List AckEvent) :
    ackCount (e :: l) = (if e.isAck then 1 else 0) + ackCount l := by
  unfold ackCount
  cases h : e.isAck <;> simp [List.filter, h]
  omega

theorem AckState.step_roomy (mn ev : String) (s : AckState) (e : AckEvent) (k : Nat)
    (h : s.Roomy ((if e.isAck then 1 else 0) + k)) : (AckState.step mn ev s e).Roomy k := by
  obtain ⟨hcap, hq, hlen⟩ := h
  cases e with
  | ackFires res err =>
    simp only [AckEvent.isAck, if_true] at hlen
    have hb : s.ch.buf = [] := List.length_eq_zero.mp (by omega)
    have hk : k = 0 := by omega
    refine ⟨?_, ?_, ?_⟩ <;> simp [AckState.step, Chan.send, hb, hcap, hq, hk]
  | deadline =>
    simp only [AckEvent.isAck] at hlen
    exact ⟨hcap, hq, by simpa [AckState.step] using hlen⟩
  | select b =>
    simp only [AckEvent.isAck] at hlen
    have hlen' : s.ch.buf.length + k ≤ 1 := by simpa using hlen
    cases hr : s.result with
    | some r => exact ⟨by simpa [AckState.step, hr] using hcap,
        by simpa [AckState.step, hr] using hq, by simpa [AckState.step, hr] using hlen'⟩
    | none =>
      cases hbuf : s.ch.buf with
      | nil =>
        have hlen0 : k ≤ 1 := by simpa [hbuf] using hlen'
        cases hT : s.timerFired <;>
          exact ⟨by simp [AckState.step, hr, Chan.recv, hbuf, hT, hcap],
            by simp [AckState.step, hr, Chan.recv, hbuf, hT, hq],
            by simp [AckState.step, hr, Chan.recv, hbuf, hT]; exact hlen0⟩
      | cons v rest =>
        have hrest : rest = [] := by
          rw [hbuf] at hlen'
          exact List.length_eq_zero.mp (by simp at hlen'; omega)
        have hk : k = 0 := by
          rw [hbuf] at hlen'
          simp at hlen'
          omega
        by_cases hsel : (s.timerFired && b) = true
        · refine ⟨?_, ?_, ?_⟩ <;>
            simp [AckState.step, hr, Chan.recv, hbuf, hsel, hcap, hq, hrest, hk]
        · refine ⟨?_, ?_, ?_⟩ <;>
            simp [AckState.step, hr, Chan.recv, hbuf, hsel, hcap, hq, hrest, hk]

theorem AckState.run_roomy (mn ev : String) (pre : List AckEvent) :
    ∀ (s : AckState) (k : Nat), s.Roomy (ackCount pre + k) →
      (AckState.run mn ev s pre).Roomy k := by
  induction pre with
  | nil =>
    intro s k h
    simpa [ackCount, AckState.run] using h
  | cons e l ih =>
    intro s k h
    rw [AckState.run_cons]
    apply ih
    apply AckState.step_roomy
    rw [ackCount_cons, Nat.add_assoc] at h
    exact h

theorem AckState.init_roomy : AckState.init.Roomy 1 := ⟨rfl, rfl, by simp [AckState.init, Chan.make]⟩

theorem AckState.roomy_mono (s : AckState) (j k : Nat) (hjk : j ≤ k) (h : s.Roomy k) :
    s.Roomy j := ⟨h.1, h.2.1, by have := h.2.2; omega⟩

theorem AckState.step_cap (mn ev : String) (s : AckState) (e : AckEvent) :
    (AckState.step mn ev s e).ch.cap = s.ch.cap := by
  cases e with
  | ackFires res err =>
    simp only [AckState.step, Chan.send]
    split <;> rfl
  | deadline => rfl
  | select b =>
    simp only [AckState.step]
    split
    · rfl
    · split
      · rename_i res ch1 hrecv
        have hcap : ch1.cap = s.ch.cap := by
          simp only [Chan.recv] at hrecv
          split at hrecv
          · simp at hrecv
          · simp only [Option.some.injEq, Prod.mk.injEq] at hrecv
            rw [← hrecv.2]
        split
        · rfl
        · exact hcap
      · split <;> rfl

theorem AckState.run_cap (mn ev : String) (sched : List AckEvent) :
    ∀ s : AckState, (AckState.run mn ev s sched).ch.cap = s.ch.cap := by
  induction sched with
  | nil => intro s; rfl
  | cons e l ih =>
    intro s
    rw [AckState.run_cons, ih, AckState.step_cap]

theorem AckState.ready_after (mn ev : String) (s : AckState) (e : AckEvent)
    (hcap : s.ch.cap = 1) (he : e.isSelect = false) : (AckState.step mn ev s e).Ready := by
  refine ⟨by rw [AckState.step_cap]; exact hcap, ?_⟩
  cases e with
  | ackFires res err =>
    right; right
    simp only [AckState.step, Chan.send]
    split
    · simp
    · rename_i hfull
      intro hnil
      simp only at hnil
      rw [hnil, hcap] at hfull
      simp at hfull
  | deadline => right; left; rfl
  | select b => simp [AckEvent.isSelect] at he

theorem AckState.select_returns (mn ev : String) (s : AckState) (b : Bool) (h : s.Ready) :
    (AckState.step mn ev s (AckEvent.select b)).result.isSome = true := by
  obtain ⟨_, hr⟩ := h
  cases hres : s.result with
  | some r0 => simp [AckState.step, hres]
  | none =>
    cases hbuf : s.ch.buf with
    | nil =>
      have hT : s.timerFired = true := by
        rcases hr with hr | hr | hr
        · simp [hres] at hr
        · exact hr
        · exact absurd hbuf hr
      simp [AckState.step, hres, Chan.recv, hbuf, hT]
    | cons v rest =>
      by_cases hsel : (s.timerFired && b) = true <;>
        simp [AckState.step, hres, Chan.recv, hbuf, hsel]

/-! ## The window between the first event and the `select` -/

theorem firstAck_none_any_deadline (e : AckEvent) (mid : List AckEvent)
    (he : e.isSelect = false) (h : firstAck (e :: mid) = none) :
    (e :: mid).any AckEvent.isDeadline = true := by
  cases e with
  | ackFires res err => simp [firstAck] at h
  | deadline => simp [AckEvent.isDeadline]
  | select b => simp [AckEvent.isSelect] at he

/-- Events other than `select` leave the call waiting, keep the head of the
buffer, put the first ack into an empty buffer and record the expiry. -/
theorem AckState.run_window (mn ev : String) (w : List AckEvent) :
    ∀ s : AckState, (∀ e ∈ w, AckEvent.isSelect e = false) → s.result = none → s.ch.cap = 1 →
      (AckState.run mn ev s w).result = none
      ∧ (AckState.run mn ev s w).ch.cap = 1
      ∧ (AckState.run mn ev s w).timerFired = (s.timerFired || w.any AckEvent.isDeadline)
      ∧ (AckState.run mn ev s w).ch.buf.head?
          = (match s.ch.buf.head? with
              | some v => some v
              | none => (firstAck w).map (fun p => ackMessage p.1 p.2)) := by
  induction w with
  | nil =>
    intro s _ hr hcap
    refine ⟨hr, hcap, by simp [AckState.run], ?_⟩
    cases h : s.ch.buf.head? <;> simp [AckState.run, firstAck, h]
  | cons e w ih =>
    intro s hw hr hcap
    have hw' : ∀ x ∈ w, AckEvent.isSelect x = false :=
      fun x hx => hw x (List.mem_cons_of_mem _ hx)
    have he := hw e (List.mem_cons_self _ _)
    rw [AckState.run_cons]
    cases e with
    | select b => simp [AckEvent.isSelect] at he
    | deadline =>
      have := ih (AckState.step mn ev s AckEvent.deadline) hw' (by simpa [AckState.step] using hr)
        (by simpa [AckState.step] using hcap)
      obtain ⟨h1, h2, h3, h4⟩ := this
      refine ⟨h1, h2, ?_, ?_⟩
      · rw [h3]
        simp [AckState.step, AckEvent.isDeadline]
      · rw [h4]
        simp [AckState.step, firstAck]
    | ackFires res err =>
      have hcap1 : (AckState.step mn ev s (AckEvent.ackFires res err)).ch.cap = 1 := by
        rw [AckState.step_cap]
        exact hcap
      have := ih (AckState.step mn ev s (AckEvent.ackFires res err)) hw'
        (by simpa [AckState.step] using hr) hcap1
      obtain ⟨h1, h2, h3, h4⟩ := this
      refine ⟨h1, h2, ?_, ?_⟩
      · rw [h3]
        simp [AckState.step, AckEvent.isDeadline]
      · rw [h4]
        cases hb : s.ch.buf with
        | nil => simp [AckState.step, Chan.send, hb, hcap, firstAck]
        | cons v rest => simp [AckState.step, Chan.send, hb, hcap]

theorem AckState.step_select_result (mn ev : String) (s : AckState) (b : Bool)
    (hr : s.result = none) :
    (AckState.step mn ev s (AckEvent.select b)).result
      = (match s.ch.buf.head? with
          | some v => some (if (s.timerFired && b) = true then timeoutEnvelope else normalize v)
          | none => if s.timerFired = true then some timeoutEnvelope else none) := by
  cases hb : s.ch.buf with
  | nil => cases ht : s.timerFired <;> simp [AckState.step, hr, Chan.recv, hb, ht]
  | cons v rest =>
    by_cases hsel : (s.timerFired && b) = true <;>
      simp [AckState.step, hr, Chan.recv, hb, hsel]

/-- The result of a call whose first `select` after the first ack or expiry sees
the events `e :: mid`: with an ack among them it is the normal form of the first
ack, unless the timer has fired too and the `select` picks it; with no ack it is
the timeout envelope. -/
theorem AckState.window_result (mn ev : String) (pre mid post : List AckEvent) (e : AckEvent)
    (b : Bool) (hpre : ∀ x ∈ pre, AckEvent.isSelect x = true) (he : e.isSelect = false)
    (hmid : ∀ x ∈ mid, AckEvent.isSelect x = false) :
    (AckState.run mn ev AckState.init (pre ++ (e :: mid ++ AckEvent.select b :: post))).result
      = some (match firstAck (e :: mid) with
          | some p =>
            if ((e :: mid).any AckEvent.isDeadline && b) = true then timeoutEnvelope
            else normalize (ackMessage p.1 p.2)
          | none => timeoutEnvelope) := by
  have hw : ∀ x ∈ e :: mid, AckEvent.isSelect x = false := by
    intro x hx
    rcases List.mem_cons.mp hx with h | h
    · exact h ▸ he
    · exact hmid x h
  obtain ⟨h1, _, h3, h4⟩ := AckState.run_window mn ev (e :: mid) AckState.init hw rfl rfl
  rw [AckState.run_append, AckState.run_selects_idle mn ev pre AckState.init hpre rfl rfl,
    AckState.run_append, AckState.run_cons (e := AckEvent.select b)]
  apply AckState.run_result_stable
  rw [AckState.step_select_result mn ev _ b h1, h4, h3]
  have hinit : AckState.init.ch.buf.head? = none := rfl
  have htimer : AckState.init.timerFired = false := rfl
  rw [hinit, htimer]
  cases hf : firstAck (e :: mid) with
  | some p => simp
  | none =>
    have := firstAck_none_any_deadline e mid he hf
    simp [this]

/-- Before any `select` has seen an ack or an expiry the call is still waiting. -/
theorem AckState.window_waiting (mn ev : String) (pre w : List AckEvent)
    (hpre : ∀ x ∈ pre, AckEvent.isSelect x = true)
    (hw : ∀ x ∈ w, AckEvent.isSelect x = false) :
    (AckState.run mn ev AckState.init (pre ++ w)).result = none := by
  rw [AckState.run_append, AckState.run_selects_idle mn ev pre AckState.init hpre rfl rfl]
  exact (AckState.run_window mn ev w AckState.init hw rfl rfl).1

/-- Once the timer has fired, the next `select` returns. -/
theorem AckState.returns_after_deadline (mn ev : String) (sched : List AckEvent) (b : Bool) :
    ∃ r, (AckState.run mn ev AckState.init
      (sched ++ [AckEvent.deadline, AckEvent.select b])).result = some r := by
  have hcap : (AckState.run mn ev AckState.init sched).ch.cap = 1 := by
    rw [AckState.run_cap]
    rfl
  have h1 := AckState.ready_after mn ev _ AckEvent.deadline hcap rfl
  have h2 := AckState.select_returns mn ev _ b h1
  obtain ⟨r, hr⟩ := Option.isSome_iff_exists.mp h2
  exact ⟨r, by rw [AckState.run_append]; exact hr⟩

/-- With at most one ack no sender is ever blocked. -/
theorem AckState.never_blocked (mn ev : String) (sched : List AckEvent)
    (honce : ackCount sched ≤ 1) :
    (AckState.run mn ev AckState.init sched).ch.sendq = [] := by
  have h0 : AckState.init.Roomy (ackCount sched + 0) :=
    AckState.roomy_mono _ _ 1 (by omega) AckState.init_roomy
  exact (AckState.run_roomy mn ev sched AckState.init 0 h0).2.1

theorem firstAck_append_of_no_ack (l r : List AckEvent) (h : ∀ x ∈ l, AckEvent.isDeadline x = true) :
    firstAck (l ++ r) = firstAck r := by
  induction l with
  | nil => rfl
  | cons x l ih =>
    have hx := h x (List.mem_cons_self _ _)
    cases x with
    | ackFires res err => simp [AckEvent.isDeadline] at hx
    | deadline =>
      simp only [List.cons_append, firstAck]
      exact ih (fun y hy => h y (List.mem_cons_of_mem _ hy))
    | select b => simp [AckEvent.isDeadline] at hx

/-! ## The claims -/

/-- Counterexample to C1 as stated. On a connected bridge with timeout 0 the ack
`[42]` is delivered with a nil error before the timer fires, the timer fires
before the caller's `select` runs, the `select` picks the timer, and the call
returns the timeout envelope instead of 42. And on a connected bridge whose
`vu.State()` is nil the call panics at the `Debugf` of line 112 and returns
nothing. -/
theorem shape_law_counterexample :
    ((EmitWithAck sampleEnv sampleModule "ack" Value.nil [Value.int 0]
        [AckEvent.ackFires (GoSlice.mk [Value.int 42]) none, AckEvent.deadline,
          AckEvent.select true]).1
      = Outcome.ret (Value.map [("success", Value.bool false), ("error", Value.str "ack timeout")])
      ∧ (EmitWithAck sampleEnv sampleModule "ack" Value.nil [Value.int 0]
        [AckEvent.ackFires (GoSlice.mk [Value.int 42]) none, AckEvent.deadline,
          AckEvent.select true]).1 ≠ Outcome.ret (Value.int 42))
    ∧ (EmitWithAck sampleEnv initModule "ack" Value.nil []
        [AckEvent.ackFires (GoSlice.mk [Value.int 42]) none, AckEvent.select false]).1
      = Outcome.panic PanicValue.nilDereference := by
  refine ⟨⟨rfl, ?_⟩, rfl⟩
  intro h
  rw [show (EmitWithAck sampleEnv sampleModule "ack" Value.nil [Value.int 0]
        [AckEvent.ackFires (GoSlice.mk [Value.int 42]) none, AckEvent.deadline,
          AckEvent.select true]).1 = Outcome.ret timeoutEnvelope from rfl] at h
  simp [timeoutEnvelope] at h

/-- C1 as amended (shape law of EmitWithAck). On a connected bridge whose
`vu.State()` and logger are non-nil, let the ack callback deliver the value list
`vs` with a nil error before the timer fires, and let `mid` be what happens
until the caller's `select` runs. If the timer has not fired by then, or the
`select` picks the channel, the call returns `vs[0]` when `len(vs) = 1` and the
list `vs` itself for every other length, the empty and the nil list included,
and replacing every element `x` by `f x` replaces the result by `f vs[0]`,
respectively by the list of the images. If the timer has fired by then and the
`select` picks it, the call returns the timeout envelope. -/
theorem EmitWithAck_shape_law (env : Env) (m : SocketIOModule) (c : Client) (st : LibState)
    (lg : FieldLogger) (event : String) (data : Value) (args : List Value) (vs : GoSlice)
    (pre mid post : List AckEvent) (b : Bool)
    (hc : m.client = some c) (hst : m.vu.State = some st) (hlg : st.Logger = some lg)
    (hpre : ∀ e ∈ pre, AckEvent.isSelect e = true)
    (hmid : ∀ e ∈ mid, AckEvent.isSelect e = false) :
    ((mid.any AckEvent.isDeadline && b) = false →
      (vs.len = 1 → ∃ v, vs = GoSlice.mk [v] ∧
        (EmitWithAck env m event data args
          (pre ++ (AckEvent.ackFires vs none :: mid ++ AckEvent.select b :: post))).1
          = Outcome.ret v)
      ∧ (vs.len ≠ 1 →
        (EmitWithAck env m event data args
          (pre ++ (AckEvent.ackFires vs none :: mid ++ AckEvent.select b :: post))).1
          = Outcome.ret vs.toValue)
      ∧ (∀ f : Value → Value,
        (EmitWithAck env m event data args
          (pre ++ (AckEvent.ackFires (vs.mapElems f) none :: mid
            ++ AckEvent.select b :: post))).1
          = Outcome.ret (match vs with
              | GoSlice.mk [v] => f v
              | GoSlice.mk xs => Value.slice (xs.map f)
              | GoSlice.nil => Value.nilSlice)))
    ∧ ((mid.any AckEvent.isDeadline && b) = true →
        (EmitWithAck env m event data args
          (pre ++ (AckEvent.ackFires vs none :: mid ++ AckEvent.select b :: post))).1
          = Outcome.ret
              (Value.map [("success", Value.bool false), ("error", Value.str "ack timeout")])) := by
  have key : ∀ ws : GoSlice, (EmitWithAck env m event data args
      (pre ++ (AckEvent.ackFires ws none :: mid ++ AckEvent.select b :: post))).1
        = Outcome.ret (if (mid.any AckEvent.isDeadline && b) = true then timeoutEnvelope
            else normalize ws) := by
    intro ws
    rw [EmitWithAck_outcome env m c st lg event data args _ hc hst hlg,
      AckState.window_result m.moduleName event pre mid post (AckEvent.ackFires ws none) b
        hpre rfl hmid]
    simp [firstAck, AckEvent.isDeadline, ackMessage]
  refine ⟨fun hsel => ⟨?_, ?_, ?_⟩, fun hsel => ?_⟩
  · intro hlen
    cases vs with
    | nil => simp [GoSlice.len] at hlen
    | mk xs =>
      match xs, hlen with
      | [v], _ => exact ⟨v, rfl, by rw [key, hsel]; rfl⟩
  · intro hlen
    rw [key, hsel]
    cases vs with
    | nil => rfl
    | mk xs =>
      match xs, hlen with
      | [], _ => rfl
      | [v], h => simp [GoSlice.len] at h
      | _ :: _ :: _, _ => rfl
  · intro f
    rw [key, hsel]
    cases vs with
    | nil => rfl
    | mk xs =>
      match xs with
      | [] => rfl
      | [v] => rfl
      | _ :: _ :: _ => rfl
  · rw [key, hsel]
    rfl

/-- Witness of C1 as amended: the ack `[42]` is returned as `42` when the timer
has not fired, and the timeout envelope is returned when it has and is picked. -/
theorem EmitWithAck_shape_law_witness :
    sampleModule.client = some 7
    ∧ (∀ e ∈ ([] : List AckEvent), AckEvent.isSelect e = true)
    ∧ (∃ v, GoSlice.mk [Value.int 42] = GoSlice.mk [v] ∧
        (EmitWithAck sampleEnv sampleModule "ack" Value.nil []
          ([] ++ (AckEvent.ackFires (GoSlice.mk [Value.int 42]) none :: []
            ++ AckEvent.select false :: []))).1 = Outcome.ret v)
    ∧ (EmitWithAck sampleEnv sampleModule "ack" Value.nil []
          ([] ++ (AckEvent.ackFires (GoSlice.mk [Value.int 42]) none :: [AckEvent.deadline]
            ++ AckEvent.select true :: []))).1
        = Outcome.ret
            (Value.map [("success", Value.bool false), ("error", Value.str "ack timeout")]) :=
  ⟨rfl, by simp,
    ((EmitWithAck_shape_law sampleEnv sampleModule 7 ⟨some FieldLogger.handle⟩
      FieldLogger.handle "ack" Value.nil [] (GoSlice.mk [Value.int 42]) [] [] [] false
      rfl rfl rfl (by simp) (by simp)).1 rfl).1 rfl,
    (EmitWithAck_shape_law sampleEnv sampleModule 7 ⟨some FieldLogger.handle⟩
      FieldLogger.handle "ack" Value.nil [] (GoSlice.mk [Value.int 42]) [] [AckEvent.deadline]
      [] true rfl rfl rfl (by simp) (by simp [AckEvent.isSelect])).2 rfl⟩

/-- Counterexample to C2 as stated. The ack callback is invoked with the error
"ack error" before the timer fires, the timer fires before the caller's `select`
runs, the `select` picks the timer, and the call returns the timeout envelope,
not the error envelope. And on a connected bridge whose `vu.State()` is nil the
call does not return normally: it panics at the `Debugf` of line 112. -/
theorem ack_error_counterexample :
    ((EmitWithAck sampleEnv sampleModule "ack" Value.nil [Value.int 0]
        [AckEvent.ackFires GoSlice.nil (some "ack error"), AckEvent.deadline,
          AckEvent.select true]).1
      = Outcome.ret (Value.map [("success", Value.bool false), ("error", Value.str "ack timeout")])
      ∧ (EmitWithAck sampleEnv sampleModule "ack" Value.nil [Value.int 0]
        [AckEvent.ackFires GoSlice.nil (some "ack error"), AckEvent.deadline,
          AckEvent.select true]).1
        ≠ Outcome.ret
            (Value.map [("success", Value.bool false), ("error", Value.str "ack error")]))
    ∧ (EmitWithAck sampleEnv initModule "ack" Value.nil []
        [AckEvent.ackFires GoSlice.nil (some "ack error"), AckEvent.select false]).1
      = Outcome.panic PanicValue.nilDereference := by
  refine ⟨⟨rfl, ?_⟩, rfl⟩
  intro h
  rw [show (EmitWithAck sampleEnv sampleModule "ack" Value.nil [Value.int 0]
        [AckEvent.ackFires GoSlice.nil (some "ack error"), AckEvent.deadline,
          AckEvent.select true]).1 = Outcome.ret timeoutEnvelope from rfl] at h
  simp [timeoutEnvelope] at h

/-- C2 as amended (ack transport error). On a connected bridge whose
`vu.State()` and logger are non-nil, let the ack callback be invoked with a
non-nil error `e` (and any value list `res`) before the timer fires, and let
`mid` be what happens until the caller's `select` runs. If the timer has not
fired by then, or the `select` picks the channel, the call returns normally with
exactly the map `{"success": false, "error": e.Error()}`, not wrapped in a list.
If the timer has fired by then and the `select` picks it, the call returns the
timeout envelope. -/
theorem EmitWithAck_ack_error (env : Env) (m : SocketIOModule) (c : Client) (st : LibState)
    (lg : FieldLogger) (event : String) (data : Value) (args : List Value) (res : GoSlice)
    (e : GoError) (pre mid post : List AckEvent) (b : Bool)
    (hc : m.client = some c) (hst : m.vu.State = some st) (hlg : st.Logger = some lg)
    (hpre : ∀ x ∈ pre, AckEvent.isSelect x = true)
    (hmid : ∀ x ∈ mid, AckEvent.isSelect x = false) :
    ((mid.any AckEvent.isDeadline && b) = false →
        (EmitWithAck env m event data args
          (pre ++ (AckEvent.ackFires res (some e) :: mid ++ AckEvent.select b :: post))).1
          = Outcome.ret (Value.map [("success", Value.bool false), ("error", Value.str e)]))
    ∧ ((mid.any AckEvent.isDeadline && b) = true →
        (EmitWithAck env m event data args
          (pre ++ (AckEvent.ackFires res (some e) :: mid ++ AckEvent.select b :: post))).1
          = Outcome.ret
              (Value.map [("success", Value.bool false), ("error", Value.str "ack timeout")])) := by
  have key : (EmitWithAck env m event data args
      (pre ++ (AckEvent.ackFires res (some e) :: mid ++ AckEvent.select b :: post))).1
        = Outcome.ret (if (mid.any AckEvent.isDeadline && b) = true then timeoutEnvelope
            else errorEnvelope e) := by
    rw [EmitWithAck_outcome env m c st lg event data args _ hc hst hlg,
      AckState.window_result m.moduleName event pre mid post (AckEvent.ackFires res (some e)) b
        hpre rfl hmid]
    simp [firstAck, AckEvent.isDeadline, ackMessage, normalize, GoSlice.len]
  constructor
  · intro hsel
    rw [key, hsel]
    rfl
  · intro hsel
    rw [key, hsel]
    rfl

/-- Witness of C2 as amended: the ack `(nil, "ack error")` of the test suite. -/
theorem EmitWithAck_ack_error_witness :
    sampleModule.client = some 7
    ∧ (∀ x ∈ ([] : List AckEvent), AckEvent.isSelect x = true)
    ∧ (EmitWithAck sampleEnv sampleModule "ack" Value.nil []
        ([] ++ (AckEvent.ackFires GoSlice.nil (some "ack error") :: []
          ++ AckEvent.select true :: []))).1
      = Outcome.ret (Value.map [("success", Value.bool false), ("error", Value.str "ack error")]) :=
  ⟨rfl, by simp,
    (EmitWithAck_ack_error sampleEnv sampleModule 7 ⟨some FieldLogger.handle⟩ FieldLogger.handle
      "ack" Value.nil [] GoSlice.nil "ack error" [] [] [] true rfl rfl rfl (by simp)
      (by simp)).1 rfl⟩

/-- Counterexample to C3 as stated. With timeout 0 the timer fires while the ack
callback has delivered nothing; the ack `[42]` arrives before the caller's
`select` runs, the `select` picks the channel, and the call returns 42 instead
of the timeout envelope. And on a connected bridge whose `vu.State()` is nil
the call fails with a host error (the nil dereference of line 112) although the
callback never fires. -/
theorem outer_timeout_counterexample :
    ((EmitWithAck sampleEnv sampleModule "ack" Value.nil [Value.int 0]
        [AckEvent.deadline, AckEvent.ackFires (GoSlice.mk [Value.int 42]) none,
          AckEvent.select false]).1 = Outcome.ret (Value.int 42)
      ∧ (EmitWithAck sampleEnv sampleModule "ack" Value.nil [Value.int 0]
        [AckEvent.deadline, AckEvent.ackFires (GoSlice.mk [Value.int 42]) none,
          AckEvent.select false]).1
        ≠ Outcome.ret
            (Value.map [("success", Value.bool false), ("error", Value.str "ack timeout")]))
    ∧ (EmitWithAck sampleEnv initModule "ack" Value.nil [Value.int 10]
        [AckEvent.deadline, AckEvent.select false]).1
      = Outcome.panic PanicValue.nilDereference := by
  refine ⟨⟨rfl, ?_⟩, rfl⟩
  intro h
  rw [show (EmitWithAck sampleEnv sampleModule "ack" Value.nil [Value.int 0]
        [AckEvent.deadline, AckEvent.ackFires (GoSlice.mk [Value.int 42]) none,
          AckEvent.select false]).1 = Outcome.ret (Value.int 42) from rfl] at h
  simp at h

/-- C3 as amended (outer timeout). On a connected bridge whose `vu.State()` and
logger are non-nil: (1) when the timer fires and the caller's `select` then runs
while the ack callback has not sent anything (whether it fires later or never),
the call returns normally with exactly the map
`{"success": false, "error": "ack timeout"}`; (2) when the timer fires first and
an ack arrives before the caller's `select` runs, both cases are ready: the call
returns the timeout envelope if the `select` picks the timer and the normalized
ack if it picks the channel. -/
theorem EmitWithAck_timeout (env : Env) (m : SocketIOModule) (c : Client) (st : LibState)
    (lg : FieldLogger) (event : String) (data : Value) (args : List Value)
    (hc : m.client = some c) (hst : m.vu.State = some st) (hlg : st.Logger = some lg) :
    (∀ (pre mid post : List AckEvent) (b : Bool),
      (∀ x ∈ pre, AckEvent.isAck x = false) → (∀ x ∈ mid, AckEvent.isAck x = false) →
      (EmitWithAck env m event data args
          (pre ++ AckEvent.deadline :: (mid ++ AckEvent.select b :: post))).1
        = Outcome.ret
            (Value.map [("success", Value.bool false), ("error", Value.str "ack timeout")]))
    ∧ (∀ (pre mid1 mid2 post : List AckEvent) (res : GoSlice) (err : Option GoError) (b : Bool),
      (∀ x ∈ pre, AckEvent.isSelect x = true) → (∀ x ∈ mid1, AckEvent.isDeadline x = true) →
      (∀ x ∈ mid2, AckEvent.isSelect x = false) →
      (EmitWithAck env m event data args
          (pre ++ (AckEvent.deadline :: (mid1 ++ AckEvent.ackFires res err :: mid2)
            ++ AckEvent.select b :: post))).1
        = Outcome.ret (if b = true
            then Value.map [("success", Value.bool false), ("error", Value.str "ack timeout")]
            else normalize (ackMessage res err))) := by
  constructor
  · intro pre mid post b hpre hmid
    rw [EmitWithAck_outcome env m c st lg event data args _ hc hst hlg,
      AckState.deadline_then_select m.moduleName event pre mid post b hpre hmid]
    rfl
  · intro pre mid1 mid2 post res err b hpre hmid1 hmid2
    have hmid : ∀ x ∈ mid1 ++ AckEvent.ackFires res err :: mid2, AckEvent.isSelect x = false := by
      intro x hx
      rcases List.mem_append.mp hx with h | h
      · have := hmid1 x h
        cases x <;> simp_all [AckEvent.isDeadline, AckEvent.isSelect]
      · rcases List.mem_cons.mp h with h | h
        · subst h
          rfl
        · exact hmid2 x h
    rw [EmitWithAck_outcome env m c st lg event data args _ hc hst hlg,
      AckState.window_result m.moduleName event pre _ post AckEvent.deadline b hpre rfl hmid]
    have hf : firstAck (AckEvent.deadline :: (mid1 ++ AckEvent.ackFires res err :: mid2))
        = some (res, err) := by
      simp only [firstAck]
      rw [firstAck_append_of_no_ack mid1 _ hmid1]
      rfl
    rw [hf]
    cases b <;> simp [AckEvent.isDeadline, timeoutEnvelope]

/-- Witness of C3 as amended: a transport that never acknowledges, timeout
argument 10. -/
theorem EmitWithAck_timeout_witness :
    sampleModule.client = some 7
    ∧ (∀ x ∈ [AckEvent.select false], AckEvent.isAck x = false)
    ∧ (EmitWithAck sampleEnv sampleModule "ack" Value.nil [Value.int 10]
        ([AckEvent.select false] ++ AckEvent.deadline :: ([] ++ AckEvent.select false :: []))).1
      = Outcome.ret (Value.map [("success", Value.bool false), ("error", Value.str "ack timeout")]) :=
  ⟨rfl, by simp [AckEvent.isAck],
    (EmitWithAck_timeout sampleEnv sampleModule 7 ⟨some FieldLogger.handle⟩ FieldLogger.handle
      "ack" Value.nil [Value.int 10] rfl rfl rfl).1
      [AckEvent.select false] [] [] false (by simp [AckEvent.isAck]) (by simp)⟩

/-- Counterexample to C4 as stated. On a connected bridge whose `vu.State()` is
nil the call panics at the `Debugf` of line 112, before the channel is made: the
execution returns no result to the caller, although the transport would have
acknowledged and the timer would have fired. -/
theorem exactly_one_result_counterexample :
    initModule.client = some 7
    ∧ (EmitWithAck sampleEnv initModule "ack" Value.nil []
        [AckEvent.ackFires (GoSlice.mk [Value.int 42]) none, AckEvent.deadline,
          AckEvent.select false]).1 = Outcome.panic PanicValue.nilDereference
    ∧ (∀ r, (EmitWithAck sampleEnv initModule "ack" Value.nil []
        [AckEvent.ackFires (GoSlice.mk [Value.int 42]) none, AckEvent.deadline,
          AckEvent.select false]).1 ≠ Outcome.ret r) := by
  refine ⟨rfl, rfl, ?_⟩
  intro r h
  rw [show (EmitWithAck sampleEnv initModule "ack" Value.nil []
        [AckEvent.ackFires (GoSlice.mk [Value.int 42]) none, AckEvent.deadline,
          AckEvent.select false]).1 = Outcome.panic PanicValue.nilDereference from rfl] at h
  cases h

/-- C4 as amended (exactly one result per request). One `EmitWithAck` call on a
connected bridge whose `vu.State()` and logger are non-nil, run against any
schedule of ack callbacks, timer expiries and runs of the caller's `select` on
the result channel of capacity 1:
(1) the first `select` that runs after an ack or an expiry returns the result:
the normalized first ack if the channel is read (an ack is there, and the timer
has not fired or the `select` picks the channel), the timeout envelope if the
timer is observed (no ack is there, or the timer has fired too and is picked);
(2) before that the call has returned nothing;
(3) every schedule continued by an expiry and a run of the `select` returns;
(4) a result that has been returned is the result of every longer schedule;
(5) when the ack callback is invoked at most once, no send into the channel is
left blocked;
(6) an ack that fires after the result was returned changes neither the result
nor the set of blocked senders. -/
theorem exactly_one_result (env : Env) (m : SocketIOModule) (c : Client) (st : LibState)
    (lg : FieldLogger) (event : String) (data : Value) (args : List Value)
    (hc : m.client = some c) (hst : m.vu.State = some st) (hlg : st.Logger = some lg) :
    (∀ (pre mid post : List AckEvent) (e : AckEvent) (b : Bool),
      (∀ x ∈ pre, AckEvent.isSelect x = true) → e.isSelect = false →
      (∀ x ∈ mid, AckEvent.isSelect x = false) →
      (EmitWithAck env m event data args
          (pre ++ (e :: mid ++ AckEvent.select b :: post))).1
        = Outcome.ret (match firstAck (e :: mid) with
            | some p =>
              if ((e :: mid).any AckEvent.isDeadline && b) = true
              then Value.map [("success", Value.bool false), ("error", Value.str "ack timeout")]
              else normalize (ackMessage p.1 p.2)
            | none =>
              Value.map [("success", Value.bool false), ("error", Value.str "ack timeout")]))
    ∧ (∀ (pre w : List AckEvent),
      (∀ x ∈ pre, AckEvent.isSelect x = true) → (∀ x ∈ w, AckEvent.isSelect x = false) →
      (EmitWithAck env m event data args (pre ++ w)).1 = Outcome.waiting)
    ∧ (∀ (sched : List AckEvent) (b : Bool), ∃ r,
      (EmitWithAck env m event data args
          (sched ++ [AckEvent.deadline, AckEvent.select b])).1 = Outcome.ret r)
    ∧ (∀ (sched post : List AckEvent) (r : Value),
      (EmitWithAck env m event data args sched).1 = Outcome.ret r →
      (EmitWithAck env m event data args (sched ++ post)).1 = Outcome.ret r)
    ∧ (∀ sched : List AckEvent, ackCount sched ≤ 1 →
      (EmitWithAck env m event data args sched).2.blocked = m.blocked)
    ∧ (∀ (sched : List AckEvent) (res : GoSlice) (err : Option GoError) (r : Value),
      ackCount sched = 0 → (EmitWithAck env m event data args sched).1 = Outcome.ret r →
      (EmitWithAck env m event data args (sched ++ [AckEvent.ackFires res err])).1 = Outcome.ret r
      ∧ (EmitWithAck env m event data args (sched ++ [AckEvent.ackFires res err])).2.blocked
          = m.blocked) := by
  have hout := fun sched => EmitWithAck_outcome env m c st lg event data args sched hc hst hlg
  have hstable : ∀ (sched post : List AckEvent) (r : Value),
      (EmitWithAck env m event data args sched).1 = Outcome.ret r →
      (EmitWithAck env m event data args (sched ++ post)).1 = Outcome.ret r := by
    intro sched post r h
    rw [hout] at h
    rw [hout, AckState.run_append]
    cases hres : (AckState.run m.moduleName event AckState.init sched).result with
    | none => simp [hres] at h
    | some v =>
      rw [hres] at h
      rw [AckState.run_result_stable m.moduleName event post _ v hres]
      exact h
  have hblocked : ∀ sched : List AckEvent, ackCount sched ≤ 1 →
      (EmitWithAck env m event data args sched).2.blocked = m.blocked := by
    intro sched honce
    rw [EmitWithAck_eq env m c st lg event data args sched hc hst hlg]
    simp [AckState.never_blocked m.moduleName event sched honce]
  refine ⟨?_, ?_, ?_, hstable, hblocked, ?_⟩
  · intro pre mid post e b hpre he hmid
    rw [hout, AckState.window_result m.moduleName event pre mid post e b hpre he hmid]
    rfl
  · intro pre w hpre hw
    rw [hout, AckState.window_waiting m.moduleName event pre w hpre hw]
  · intro sched b
    obtain ⟨r, hr⟩ := AckState.returns_after_deadline m.moduleName event sched b
    exact ⟨r, by rw [hout, hr]⟩
  · intro sched res err r hzero hret
    refine ⟨hstable sched _ r hret, hblocked _ ?_⟩
    have : ackCount (sched ++ [AckEvent.ackFires res err]) = ackCount sched + 1 := by
      unfold ackCount
      simp [List.filter_append, List.filter, AckEvent.isAck]
    omega

/-- Witness of C4 as amended: the timer fires, the call returns the timeout
envelope, and the ack that arrives afterwards is absorbed by the channel. -/
theorem exactly_one_result_witness :
    sampleModule.client = some 7
    ∧ ackCount [AckEvent.deadline, AckEvent.select true] = 0
    ∧ (EmitWithAck sampleEnv sampleModule "ack" Value.nil []
        [AckEvent.deadline, AckEvent.select true]).1 = Outcome.ret timeoutEnvelope
    ∧ (EmitWithAck sampleEnv sampleModule "ack" Value.nil []
        ([AckEvent.deadline, AckEvent.select true]
          ++ [AckEvent.ackFires (GoSlice.mk [Value.int 1]) none])).1 = Outcome.ret timeoutEnvelope
    ∧ (EmitWithAck sampleEnv sampleModule "ack" Value.nil []
        ([AckEvent.deadline, AckEvent.select true]
          ++ [AckEvent.ackFires (GoSlice.mk [Value.int 1]) none])).2.blocked = [] :=
  ⟨rfl, by decide, rfl,
    ((exactly_one_result sampleEnv sampleModule 7 ⟨some FieldLogger.handle⟩ FieldLogger.handle
      "ack" Value.nil [] rfl rfl rfl).2.2.2.2.2
      [AckEvent.deadline, AckEvent.select true] (GoSlice.mk [Value.int 1]) none timeoutEnvelope
      (by decide) rfl).1,
    ((exactly_one_result sampleEnv sampleModule 7 ⟨some FieldLogger.handle⟩ FieldLogger.handle
      "ack" Value.nil [] rfl rfl rfl).2.2.2.2.2
      [AckEvent.deadline, AckEvent.select true] (GoSlice.mk [Value.int 1]) none timeoutEnvelope
      (by decide) rfl).2⟩

/-- On a bridge without a client `Emit` panics, whether at the `Debugf` call or
at the client check, and touches neither the calls, the client nor the timers. -/
theorem Emit_no_client (env : Env) (m : SocketIOModule) (event : String) (data : Value)
    (hc : m.client = none) :
    (∃ p, (Emit env m event data).1 = Outcome.panic p)
    ∧ (Emit env m event data).2.calls = m.calls
    ∧ (Emit env m event data).2.client = none
    ∧ (Emit env m event data).2.timers = m.timers := by
  cases h : Debugf m (LogLine.emit m.moduleName event data) with
  | none => simp [Emit, h, hc]
  | some m1 =>
    obtain ⟨h1, h2, h3, _⟩ := Debugf_client m m1 _ h
    have hc1 : m1.client = none := h1.trans hc
    simp [Emit, h, hc1, h2, h3]

theorem Emit_no_client_logged (env : Env) (m : SocketIOModule) (st : LibState) (lg : FieldLogger)
    (event : String) (data : Value) (hc : m.client = none) (hst : m.vu.State = some st)
    (hlg : st.Logger = some lg) :
    (Emit env m event data).1 = Outcome.panic notConnected := by
  simp [Emit, Debugf, hst, hlg, hc]

theorem Disconnect_vu (m : SocketIOModule) : (Disconnect m).2.vu = m.vu := by
  cases hc : m.client <;> simp [Disconnect, hc]

/-- Counterexample to C7 as stated. On a connected bridge whose `vu.State()` is
nil, the `Emit` after `Disconnect` does not fail with
"Socket.IO client not connected": it panics with a nil dereference at the
`Debugf` call that precedes the client check. -/
theorem Disconnect_idempotent_counterexample :
    (Disconnect initModule).2.client = none
    ∧ (Emit sampleEnv (Disconnect initModule).2 "foo" (Value.int 123)).1
        = Outcome.panic PanicValue.nilDereference
    ∧ (Emit sampleEnv (Disconnect initModule).2 "foo" (Value.int 123)).1
        ≠ Outcome.panic (PanicValue.str "Socket.IO client not connected") := by
  refine ⟨rfl, rfl, ?_⟩
  intro h
  rw [show (Emit sampleEnv (Disconnect initModule).2 "foo" (Value.int 123)).1
    = Outcome.panic PanicValue.nilDereference from rfl] at h
  cases h

/-- C7 as amended (Disconnect is idempotent). For every bridge state,
`Disconnect` returns normally, leaves the client nil and appends to the calls
exactly one `Close` of the stored client if there was one and nothing otherwise;
a second `Disconnect` changes neither the state nor the calls; an `Emit` after
`Disconnect` panics without any call to the transport, with
"Socket.IO client not connected" whenever `vu.State()` and its logger are
non-nil. -/
theorem Disconnect_idempotent (env : Env) (m : SocketIOModule) (event : String) (data : Value) :
    (Disconnect m).1 = Outcome.ret ()
    ∧ (Disconnect m).2.client = none
    ∧ (Disconnect m).2.calls
        = m.calls ++ (match m.client with
            | some c => [Call.Close c]
            | none => [])
    ∧ (Disconnect (Disconnect m).2).1 = Outcome.ret ()
    ∧ (Disconnect (Disconnect m).2).2 = (Disconnect m).2
    ∧ (∃ p, (Emit env (Disconnect m).2 event data).1 = Outcome.panic p)
    ∧ (Emit env (Disconnect m).2 event data).2.calls = (Disconnect m).2.calls
    ∧ (∀ (st : LibState) (lg : FieldLogger), m.vu.State = some st → st.Logger = some lg →
        (Emit env (Disconnect m).2 event data).1
          = Outcome.panic (PanicValue.str "Socket.IO client not connected")) := by
  have hnone : (Disconnect m).2.client = none := by
    cases hc : m.client <;> simp [Disconnect, hc]
  have hemit := Emit_no_client env (Disconnect m).2 event data hnone
  refine ⟨?_, hnone, ?_, ?_, ?_, hemit.1, hemit.2.1, ?_⟩
  · cases hc : m.client <;> simp [Disconnect, hc]
  · cases hc : m.client <;> simp [Disconnect, hc]
  · cases hc : m.client <;> simp [Disconnect, hc]
  · cases hc : m.client <;> simp [Disconnect, hc]
  · intro st lg hst hlg
    exact Emit_no_client_logged env (Disconnect m).2 st lg event data hnone
      ((Disconnect_vu m).symm ▸ hst) hlg

/-- Witness of C7 as amended: disconnecting the connected sample bridge closes
client 7 once, and the `Emit` that follows panics with the NotConnected text. -/
theorem Disconnect_idempotent_witness :
    (Disconnect sampleModule).2.calls = [Call.Close 7]
    ∧ (Disconnect (Disconnect sampleModule).2).2 = (Disconnect sampleModule).2
    ∧ (Emit sampleEnv (Disconnect sampleModule).2 "foo" (Value.int 123)).1
        = Outcome.panic (PanicValue.str "Socket.IO client not connected") :=
  ⟨(Disconnect_idempotent sampleEnv sampleModule "foo" (Value.int 123)).2.2.1,
    (Disconnect_idempotent sampleEnv sampleModule "foo" (Value.int 123)).2.2.2.2.1,
    (Disconnect_idempotent sampleEnv sampleModule "foo" (Value.int 123)).2.2.2.2.2.2.2
      ⟨some FieldLogger.handle⟩ FieldLogger.handle rfl rfl⟩

/-- Counterexample to C9 as stated. On a connected bridge whose `vu.State()` is
nil, `Emit` does not return normally and does not invoke the client's `Emit`: it
panics with a nil dereference at the `Debugf` call of line 90. -/
theorem Emit_fire_and_forget_counterexample :
    initModule.client = some 7
    ∧ (Emit sampleEnv initModule "foo" (Value.int 123)).1
        = Outcome.panic PanicValue.nilDereference
    ∧ (Emit sampleEnv initModule "foo" (Value.int 123)).1 ≠ Outcome.ret ()
    ∧ (Emit sampleEnv initModule "foo" (Value.int 123)).2.calls = [] := by
  refine ⟨rfl, rfl, ?_, rfl⟩
  intro h
  rw [show (Emit sampleEnv initModule "foo" (Value.int 123)).1
    = Outcome.panic PanicValue.nilDereference from rfl] at h
  cases h

/-- C9 as amended (Emit is fire-and-forget). On a connected bridge whose
`vu.State()` and logger are non-nil, `Emit` returns normally whatever the
transport's `Emit` returns (nil or an error), appends to the calls exactly one
`Emit` on the stored client with the given event and with `data` as the single
data argument, starts no timer and leaves the client unchanged. -/
theorem Emit_fire_and_forget (env : Env) (m : SocketIOModule) (c : Client) (st : LibState)
    (lg : FieldLogger) (event : String) (data : Value)
    (hc : m.client = some c) (hst : m.vu.State = some st) (hlg : st.Logger = some lg) :
    (Emit env m event data).1 = Outcome.ret ()
    ∧ (Emit env m event data).2.calls
        = m.calls ++ [Call.Emit c event [data] (env.Emit m.calls c event [data])]
    ∧ (Emit env m event data).2.client = some c
    ∧ (Emit env m event data).2.timers = m.timers := by
  refine ⟨?_, ?_, ?_, ?_⟩ <;> simp [Emit, Debugf, hst, hlg, hc]

/-- Witness of C9 as amended: `emit("foo", 123)` against a transport whose `Emit`
fails. -/
theorem Emit_fire_and_forget_witness :
    sampleModule.client = some 7
    ∧ (Emit failingEnv sampleModule "foo" (Value.int 123)).1 = Outcome.ret ()
    ∧ (Emit failingEnv sampleModule "foo" (Value.int 123)).2.calls
        = [Call.Emit 7 "foo" [Value.int 123] (some "emit failed")] :=
  ⟨rfl,
    (Emit_fire_and_forget failingEnv sampleModule 7 ⟨some FieldLogger.handle⟩ FieldLogger.handle
      "foo" (Value.int 123) rfl rfl rfl).1,
    (Emit_fire_and_forget failingEnv sampleModule 7 ⟨some FieldLogger.handle⟩ FieldLogger.handle
      "foo" (Value.int 123) rfl rfl rfl).2.1⟩

theorem wrap64_of_range (x : Int) (h1 : -9223372036854775808 ≤ x) (h2 : x < 9223372036854775808) :
    wrap64 x = x := by
  unfold wrap64
  norm_num
  omega

theorem durationOf_of_range (t : Int) (h1 : -9223372036854 ≤ t) (h2 : t ≤ 9223372036854) :
    durationOf t = t * 1000000 := by
  unfold durationOf
  rw [wrap64_of_range t (by omega) (by omega), wrap64_of_range _ (by omega) (by omega)]

/-- Counterexample to C6 as stated. The third argument `int64(5)` is an integer,
yet the timeout used is 2000 and `Timeout` receives two seconds, not five
milliseconds; and for the `int` argument 10000000000000 the duration handed to
`Timeout` and to the timer is negative, not that many milliseconds. -/
theorem timeout_argument_counterexample :
    (specTimeout [Value.int64 5] = 5
      ∧ parseTimeout [Value.int64 5] = 2000
      ∧ (EmitWithAck sampleEnv sampleModule "ack" Value.nil [Value.int64 5] []).2.calls
          = [Call.Timeout 7 2000000000 7, Call.EmitWithAck 7 "ack" Value.nil])
    ∧ (parseTimeout [Value.int 10000000000000] = 10000000000000
      ∧ durationOf (parseTimeout [Value.int 10000000000000]) = -8446744073709551616
      ∧ (EmitWithAck sampleEnv sampleModule "ack" Value.nil [Value.int 10000000000000] []).2.timers
          = [-8446744073709551616]) := by
  refine ⟨⟨rfl, rfl, ?_⟩, rfl, ?_, ?_⟩
  · rfl
  · decide
  · decide

/-- C6 as amended (default timeout). For every call of `EmitWithAck` the
timeout is 2000 when there is no third argument or when the dynamic type of the
third argument is not `int` (an `int64`, a float, a string), and is the value of
the third argument when that is an `int`; later arguments have no effect. On a
bridge whose `vu.State()` and logger are non-nil that timeout is the one
logged, and if the bridge is connected as well `Timeout` and the timer get
`time.Duration(timeout) * time.Millisecond`, which is that many milliseconds
whenever the timeout lies between -9223372036854 and 9223372036854. -/
theorem timeout_argument (env : Env) (m : SocketIOModule) (event : String) (data : Value)
    (args : List Value) (sched : List AckEvent) :
    (args = [] → parseTimeout args = 2000)
    ∧ (∀ a rest, args = a :: rest → (∀ n, a ≠ Value.int n) → parseTimeout args = 2000)
    ∧ (∀ n rest, args = Value.int n :: rest → parseTimeout args = n)
    ∧ (∀ a rest, args = a :: rest →
        EmitWithAck env m event data args sched = EmitWithAck env m event data [a] sched)
    ∧ (∀ (st : LibState) (lg : FieldLogger), m.vu.State = some st → st.Logger = some lg →
        ∃ later, (EmitWithAck env m event data args sched).2.logs
          = m.logs ++ LogLine.emitWithAck m.moduleName event data (parseTimeout args) :: later)
    ∧ (∀ (st : LibState) (lg : FieldLogger) (c : Client),
        m.vu.State = some st → st.Logger = some lg → m.client = some c →
        (EmitWithAck env m event data args sched).2.calls
          = m.calls ++
            [Call.Timeout c (durationOf (parseTimeout args))
                (env.Timeout m.calls c (durationOf (parseTimeout args))),
              Call.EmitWithAck (env.Timeout m.calls c (durationOf (parseTimeout args))) event data]
        ∧ (EmitWithAck env m event data args sched).2.timers
          = m.timers ++ [durationOf (parseTimeout args)])
    ∧ (-9223372036854 ≤ parseTimeout args → parseTimeout args ≤ 9223372036854 →
        durationOf (parseTimeout args) = parseTimeout args * 1000000) := by
  refine ⟨?_, ?_, ?_, ?_, ?_, ?_, ?_⟩
  · intro h
    subst h
    rfl
  · intro a rest h hn
    subst h
    cases a with
    | int n => exact absurd rfl (hn n)
    | _ => rfl
  · intro n rest h
    subst h
    rfl
  · intro a rest h
    subst h
    have hp : parseTimeout (a :: rest) = parseTimeout [a] := by
      cases a <;> rfl
    simp only [EmitWithAck, hp]
  · intro st lg hst hlg
    cases hc : m.client with
    | none => exact ⟨[], by simp [EmitWithAck, Debugf, hst, hlg, hc]⟩
    | some c =>
      refine ⟨(AckState.run m.moduleName event AckState.init sched).logs, ?_⟩
      rw [EmitWithAck_eq env m c st lg event data args sched hc hst hlg]
      simp
  · intro st lg c hst hlg hc
    rw [EmitWithAck_eq env m c st lg event data args sched hc hst hlg]
    simp
  · intro h1 h2
    exact durationOf_of_range _ h1 h2

/-- Witness of C6 as amended: the call of the test suite, `EmitWithAck("ack", _, 10)`,
uses 10 milliseconds; with a fourth argument it behaves the same. -/
theorem timeout_argument_witness :
    parseTimeout [Value.int 10, Value.str "x"] = 10
    ∧ EmitWithAck sampleEnv sampleModule "ack" Value.nil [Value.int 10, Value.str "x"] []
        = EmitWithAck sampleEnv sampleModule "ack" Value.nil [Value.int 10] []
    ∧ (EmitWithAck sampleEnv sampleModule "ack" Value.nil [Value.int 10, Value.str "x"] []).2.timers
        = sampleModule.timers ++ [durationOf (parseTimeout [Value.int 10, Value.str "x"])]
    ∧ durationOf (parseTimeout [Value.int 10, Value.str "x"])
        = parseTimeout [Value.int 10, Value.str "x"] * 1000000 :=
  ⟨(timeout_argument sampleEnv sampleModule "ack" Value.nil [Value.int 10, Value.str "x"] []).2.2.1
      10 [Value.str "x"] rfl,
    (timeout_argument sampleEnv sampleModule "ack" Value.nil [Value.int 10, Value.str "x"] []).2.2.2.1
      (Value.int 10) [Value.str "x"] rfl,
    ((timeout_argument sampleEnv sampleModule "ack" Value.nil [Value.int 10, Value.str "x"]
      []).2.2.2.2.2.1 ⟨some FieldLogger.handle⟩ FieldLogger.handle 7 rfl rfl rfl).2,
    (timeout_argument sampleEnv sampleModule "ack" Value.nil [Value.int 10, Value.str "x"]
      []).2.2.2.2.2.2 (by decide) (by decide)⟩


/-- Counterexample to C10 as stated. Two successful `connect` calls in a row:
the seam has produced clients 0 and 1, `Close` was called on neither, so two
clients are open while the bridge references only the second. -/
theorem at_most_one_alive_counterexample :
    alive (runOps sampleEnv (NewModuleInstance sampleVU "testmod")
        [Op.connect "ws://a", Op.connect "ws://b"]).calls = [0, 1]
    ∧ ¬ ((alive (runOps sampleEnv (NewModuleInstance sampleVU "testmod")
        [Op.connect "ws://a", Op.connect "ws://b"]).calls).length ≤ 1)
    ∧ (runOps sampleEnv (NewModuleInstance sampleVU "testmod")
        [Op.connect "ws://a", Op.connect "ws://b"]).client = some 1 := by
  refine ⟨by decide, by decide, rfl⟩

theorem mem_alive (calls : List Call) (c : Client) :
    c ∈ alive calls ↔ c ∈ produced calls ∧ c ∉ closed calls := by
  simp [alive, List.mem_filter, List.mem_dedup]

theorem alive_nodup (calls : List Call) : (alive calls).Nodup :=
  (List.nodup_dedup _).filter _

theorem alive_length_le_one (m : SocketIOModule) (h : OnlyStoredAlive m) :
    (alive m.calls).length ≤ 1 := by
  have hnd := alive_nodup m.calls
  match hl : alive m.calls with
  | [] => simp
  | [_] => simp
  | a :: b :: rest =>
    exfalso
    have ha : m.client = some a := h a (by simp [hl])
    have hb : m.client = some b := h b (by simp [hl])
    have hab : a = b := Option.some.inj (ha.symm.trans hb)
    rw [hl] at hnd
    simp [hab] at hnd

theorem produced_append (a b : List Call) : produced (a ++ b) = produced a ++ produced b := by
  simp [produced, List.filterMap_append]

theorem closed_append (a b : List Call) : closed (a ++ b) = closed a ++ closed b := by
  simp [closed, List.filterMap_append]

theorem Connect_keeps_invariant (env : Env) (m : SocketIOModule) (url : String)
    (hok : m.client = none ∨ (env.connectFunc m.calls url).2 ≠ none)
    (h : OnlyStoredAlive m) : OnlyStoredAlive (Connect env m url).2 := by
  intro c hc
  rw [mem_alive] at hc
  obtain ⟨hp, hcl⟩ := hc
  cases herr : (env.connectFunc m.calls url).2 with
  | some e =>
    have hcalls : (Connect env m url).2.calls
        = m.calls ++ [Call.connectFunc url (env.connectFunc m.calls url).1 (some e)] := by
      simp [Connect, herr]
    have hclient : (Connect env m url).2.client = m.client := by simp [Connect, herr]
    rw [hcalls, produced_append] at hp
    rw [hcalls, closed_append] at hcl
    have hp1 : c ∈ produced m.calls := by
      cases hr1 : (env.connectFunc m.calls url).1 <;>
        simpa [produced, Call.producedClient, hr1] using hp
    have hcl1 : c ∉ closed m.calls := by
      intro hmem
      exact hcl (List.mem_append_left _ hmem)
    rw [hclient]
    exact h c ((mem_alive m.calls c).mpr ⟨hp1, hcl1⟩)
  | none =>
    have hnone : m.client = none := by
      rcases hok with hok | hok
      · exact hok
      · exact absurd herr hok
    have hcalls : (Connect env m url).2.calls
        = m.calls ++ [Call.connectFunc url (env.connectFunc m.calls url).1 none] := by
      simp [Connect, herr]
    have hclient : (Connect env m url).2.client = (env.connectFunc m.calls url).1 := by
      simp [Connect, herr]
    rw [hcalls, produced_append] at hp
    rw [hcalls, closed_append] at hcl
    have hcl1 : c ∉ closed m.calls := by
      intro hmem
      exact hcl (List.mem_append_left _ hmem)
    rw [hclient]
    rcases List.mem_append.mp hp with hp1 | hp2
    · have := h c ((mem_alive m.calls c).mpr ⟨hp1, hcl1⟩)
      rw [hnone] at this
      exact absurd this (by simp)
    · cases hr1 : (env.connectFunc m.calls url).1 with
      | none => simp [produced, Call.producedClient, hr1] at hp2
      | some c1 =>
        have : c = c1 := by simpa [produced, Call.producedClient, hr1] using hp2
        rw [this]

theorem produced_neutral (extra : List Call)
    (h : ∀ x ∈ extra, Call.producedClient x = none ∧ Call.closedClient x = none) :
    produced extra = [] ∧ closed extra = [] := by
  induction extra with
  | nil => exact ⟨rfl, rfl⟩
  | cons x l ih =>
    obtain ⟨h1, h2⟩ := h x (List.mem_cons_self _ _)
    obtain ⟨i1, i2⟩ := ih (fun y hy => h y (List.mem_cons_of_mem _ hy))
    constructor
    · simpa [produced, List.filterMap_cons, h1] using i1
    · simpa [closed, List.filterMap_cons, h2] using i2

/-- Calls that neither produce nor close a client, made without touching the
client reference, keep the invariant. -/
theorem invariant_of_neutral (m m1 : SocketIOModule) (extra : List Call)
    (hcalls : m1.calls = m.calls ++ extra)
    (hneutral : ∀ x ∈ extra, Call.producedClient x = none ∧ Call.closedClient x = none)
    (hclient : m1.client = m.client) (h : OnlyStoredAlive m) : OnlyStoredAlive m1 := by
  obtain ⟨hp, hcl⟩ := produced_neutral extra hneutral
  intro c hc
  rw [mem_alive, hcalls, produced_append, closed_append, hp, hcl, List.append_nil,
    List.append_nil] at hc
  rw [hclient]
  exact h c ((mem_alive m.calls c).mpr hc)

theorem Emit_keeps_invariant (env : Env) (m : SocketIOModule) (event : String) (data : Value)
    (h : OnlyStoredAlive m) : OnlyStoredAlive (Emit env m event data).2 := by
  cases hd : Debugf m (LogLine.emit m.moduleName event data) with
  | none =>
    have : (Emit env m event data).2 = m := by simp [Emit, hd]
    rw [this]
    exact h
  | some m1 =>
    obtain ⟨h1, h2, _⟩ := Debugf_client m m1 _ hd
    cases hcl : m1.client with
    | none =>
      apply invariant_of_neutral m _ [] _ _ _ h
      · simp [Emit, hd, hcl, h2]
      · simp
      · simp [Emit, hd, hcl, ← h1]
    | some c0 =>
      apply invariant_of_neutral m _ [Call.Emit c0 event [data] (env.Emit m.calls c0 event [data])]
        _ _ _ h
      · simp [Emit, hd, hcl, h2]
      · simp [Call.producedClient, Call.closedClient]
      · simp [Emit, hd, hcl, ← h1]

theorem EmitWithAck_keeps_invariant (env : Env) (m : SocketIOModule) (event : String)
    (data : Value) (args : List Value) (sched : List AckEvent)
    (h : OnlyStoredAlive m) : OnlyStoredAlive (EmitWithAck env m event data args sched).2 := by
  cases hd : Debugf m (LogLine.emitWithAck m.moduleName event data (parseTimeout args)) with
  | none =>
    have : (EmitWithAck env m event data args sched).2 = m := by simp [EmitWithAck, hd]
    rw [this]
    exact h
  | some m1 =>
    obtain ⟨h1, h2, _⟩ := Debugf_client m m1 _ hd
    cases hcl : m1.client with
    | none =>
      apply invariant_of_neutral m _ [] _ _ _ h
      · simp [EmitWithAck, hd, hcl, h2]
      · simp
      · simp [EmitWithAck, hd, hcl, ← h1]
    | some c0 =>
      apply invariant_of_neutral m _
        [Call.Timeout c0 (durationOf (parseTimeout args))
            (env.Timeout m.calls c0 (durationOf (parseTimeout args))),
          Call.EmitWithAck (env.Timeout m.calls c0 (durationOf (parseTimeout args))) event data]
        _ _ _ h
      · simp only [EmitWithAck, hd, hcl, h2]
        cases (AckState.run m.moduleName event AckState.init sched).result <;> rfl
      · simp [Call.producedClient, Call.closedClient]
      · simp only [EmitWithAck, hd, hcl]
        cases (AckState.run m.moduleName event AckState.init sched).result <;>
          simp [← h1, hcl]

theorem Disconnect_keeps_invariant (m : SocketIOModule)
    (h : OnlyStoredAlive m) : OnlyStoredAlive (Disconnect m).2 := by
  intro c hc
  rw [mem_alive] at hc
  cases hcl : m.client with
  | none =>
    have h1 : (Disconnect m).2 = m := by simp [Disconnect, hcl]
    rw [h1] at hc ⊢
    exact h c ((mem_alive m.calls c).mpr hc)
  | some c0 =>
    have h1 : (Disconnect m).2.calls = m.calls ++ [Call.Close c0] := by simp [Disconnect, hcl]
    rw [h1, produced_append, closed_append] at hc
    exfalso
    obtain ⟨hp, hncl⟩ := hc
    have hp1 : c ∈ produced m.calls := by
      simpa [produced, Call.producedClient] using hp
    have hcl1 : c ∉ closed m.calls := fun hmem => hncl (List.mem_append_left _ hmem)
    have hstored := h c ((mem_alive m.calls c).mpr ⟨hp1, hcl1⟩)
    rw [hcl] at hstored
    have hcc : c0 = c := Option.some.inj hstored
    apply hncl
    apply List.mem_append_right
    simp [closed, Call.closedClient, hcc]

theorem runOps_keeps_invariant (env : Env) (ops : List Op) :
    ∀ (m : SocketIOModule) (n : Nat), OnlyStoredAlive m → NoReconnect env m ops →
      OnlyStoredAlive (runOps env m (ops.take n)) := by
  induction ops with
  | nil =>
    intro m n h _
    simpa [runOps] using h
  | cons op rest ih =>
    intro m n h hno
    cases n with
    | zero => simpa [runOps] using h
    | succ k =>
      obtain ⟨hop, hrest⟩ := hno
      have hstep : OnlyStoredAlive (op.exec env m) := by
        cases op with
        | connect url => exact Connect_keeps_invariant env m url hop h
        | emit event data => exact Emit_keeps_invariant env m event data h
        | emitWithAck event data args sched =>
          exact EmitWithAck_keeps_invariant env m event data args sched h
        | disconnect => exact Disconnect_keeps_invariant m h
      have := ih (op.exec env m) k hstep hrest
      simpa [runOps] using this

/-- C10 as amended (at most one client alive per bridge). For every finite
sequence of connect, emit, emitWithAck and disconnect calls on a bridge that
starts without a client, in which every connect made while a client is stored
fails, at every point of the sequence every client the seam has produced and
that has not been closed is the client the bridge references; hence at most
one such client exists. -/
theorem at_most_one_alive (env : Env) (vu : VU) (moduleName : String) (ops : List Op)
    (hno : NoReconnect env (NewModuleInstance vu moduleName) ops) (n : Nat) :
    (∀ c ∈ alive (runOps env (NewModuleInstance vu moduleName) (ops.take n)).calls,
        (runOps env (NewModuleInstance vu moduleName) (ops.take n)).client = some c)
    ∧ (alive (runOps env (NewModuleInstance vu moduleName) (ops.take n)).calls).length ≤ 1 := by
  have h0 : OnlyStoredAlive (NewModuleInstance vu moduleName) := by
    intro c hc
    simp [NewModuleInstance, alive, produced] at hc
  have h := runOps_keeps_invariant env ops (NewModuleInstance vu moduleName) n h0 hno
  exact ⟨h, alive_length_le_one _ h⟩

/-- Witness of C10 as amended: connect, emit, disconnect, connect again; after
the four calls the only open client is the second one produced. -/
theorem at_most_one_alive_witness :
    NoReconnect sampleEnv (NewModuleInstance sampleVU "testmod")
      [Op.connect "ws://a", Op.emit "foo" (Value.int 123), Op.disconnect, Op.connect "ws://b"]
    ∧ (alive (runOps sampleEnv (NewModuleInstance sampleVU "testmod")
        (List.take 4 [Op.connect "ws://a", Op.emit "foo" (Value.int 123), Op.disconnect,
          Op.connect "ws://b"])).calls).length ≤ 1 :=
  ⟨⟨Or.inl rfl, trivial, trivial, Or.inl rfl, trivial⟩,
    (at_most_one_alive sampleEnv sampleVU "testmod"
      [Op.connect "ws://a", Op.emit "foo" (Value.int 123), Op.disconnect, Op.connect "ws://b"]
      ⟨Or.inl rfl, trivial, trivial, Or.inl rfl, trivial⟩ 4).2⟩


end Bridge
